import Mathlib

/-!
Verification of the `Triangular` distribution
(`src/pyro/distributions/triangular.py`).

The numeric values flowing through the code are modelled as extended reals
with a NaN element (`F`), following IEEE semantics for the operations the
code uses (`+`, `-`, `*`, `/`, `sqrt`, `log`, comparisons): infinities and
NaN propagate as in floating point, while finite arithmetic is exact real
arithmetic (rounding is not modelled).  Tensors are modelled as a shape
together with a multi-index-to-value function; the parameter tensors of a
distribution are taken after `broadcast_all`, i.e. all of the common batch
shape.  The standard-uniform draws consumed by `rsample` are supplied as an
explicit argument, so sampling is a deterministic function of the draws.
-/

namespace Pyro

/-- IEEE-style scalar: NaN, +infinity, -infinity, or a finite real. -/
inductive F where
  | nan : F
  | pinf : F
  | ninf : F
  | fin : ℝ → F

noncomputable section

namespace F

/-- IEEE negation. -/
def neg : F → F
  | nan => nan
  | pinf => ninf
  | ninf => pinf
  | fin x => fin (-x)

/-- IEEE addition: NaN propagates, opposite infinities give NaN. -/
def add : F → F → F
  | nan, _ => nan
  | _, nan => nan
  | pinf, ninf => nan
  | ninf, pinf => nan
  | pinf, _ => pinf
  | _, pinf => pinf
  | ninf, _ => ninf
  | _, ninf => ninf
  | fin x, fin y => fin (x + y)

/-- IEEE subtraction, as addition of the negation. -/
def sub (a b : F) : F := a.add b.neg

/-- IEEE multiplication: NaN propagates, infinity times zero gives NaN. -/
def mul : F → F → F
  | nan, _ => nan
  | _, nan => nan
  | pinf, pinf => pinf
  | pinf, ninf => ninf
  | ninf, pinf => ninf
  | ninf, ninf => pinf
  | pinf, fin x => if 0 < x then pinf else if x < 0 then ninf else nan
  | fin x, pinf => if 0 < x then pinf else if x < 0 then ninf else nan
  | ninf, fin x => if 0 < x then ninf else if x < 0 then pinf else nan
  | fin x, ninf => if 0 < x then ninf else if x < 0 then pinf else nan
  | fin x, fin y => fin (x * y)

/-- IEEE division: NaN propagates, inf/inf and 0/0 give NaN, finite
nonzero over zero gives a signed infinity (zero is treated as unsigned). -/
def div : F → F → F
  | nan, _ => nan
  | _, nan => nan
  | pinf, pinf => nan
  | pinf, ninf => nan
  | ninf, pinf => nan
  | ninf, ninf => nan
  | pinf, fin y => if y < 0 then ninf else pinf
  | ninf, fin y => if y < 0 then pinf else ninf
  | fin _, pinf => fin 0
  | fin _, ninf => fin 0
  | fin x, fin y =>
      if y = 0 then (if x = 0 then nan else if 0 < x then pinf else ninf)
      else fin (x / y)

/-- IEEE square root: NaN on negative arguments and -infinity. -/
def sqrt : F → F
  | nan => nan
  | pinf => pinf
  | ninf => nan
  | fin x => if x < 0 then nan else fin (Real.sqrt x)

/-- IEEE natural logarithm: NaN on negative arguments, `log 0 = -inf`. -/
def log : F → F
  | nan => nan
  | pinf => pinf
  | ninf => nan
  | fin x => if x < 0 then nan else if x = 0 then ninf else fin (Real.log x)

/-- IEEE strict less-than: any comparison with NaN is false. -/
def lt : F → F → Bool
  | nan, _ => false
  | _, nan => false
  | ninf, ninf => false
  | ninf, _ => true
  | _, ninf => false
  | pinf, _ => false
  | _, pinf => true
  | fin x, fin y => decide (x < y)

/-- IEEE less-or-equal: any comparison with NaN is false. -/
def le : F → F → Bool
  | nan, _ => false
  | _, nan => false
  | ninf, _ => true
  | _, ninf => false
  | _, pinf => true
  | pinf, _ => false
  | fin x, fin y => decide (x ≤ y)

/-- `a > b`, as in the code, is `b < a`. -/
def gt (a b : F) : Bool := lt b a

/-- `a >= b`, as in the code, is `b <= a`. -/
def ge (a b : F) : Bool := le b a

end F

/-- A tensor: a shape together with the value held at each multi-index.
Only indices componentwise below the shape are meaningful. -/
structure Tensor where
  shape : List ℕ
  data : List ℕ → F

/-- All multi-indices of a given shape, in lexicographic order. -/
def allIdx : List ℕ → List (List ℕ)
  | [] => [[]]
  | n :: rest => (List.range n).flatMap fun i => (allIdx rest).map fun t => i :: t

/-- Translation of a multi-index of `newShape` to the index of the
broadcast-source tensor of shape `oldShape` it reads from: extra leading
dimensions are dropped and stretched size-1 dimensions read index 0.
This is the standard right-aligned broadcast rule used by `expand`. -/
def broadcastIdx (oldShape newShape idx : List ℕ) : List ℕ :=
  (oldShape.zip (idx.drop (newShape.length - oldShape.length))).map
    fun p => if p.1 = 1 then 0 else p.2

/-- `Tensor.expand`: broadcast a tensor to a (compatible) larger shape,
view semantics (each element of the result reads the source element at the
broadcast-translated index). -/
def Tensor.expand (t : Tensor) (newShape : List ℕ) : Tensor :=
  ⟨newShape, fun idx => t.data (broadcastIdx t.shape newShape idx)⟩

/-- The `Triangular` distribution: the three parameter tensors (after
`broadcast_all`, so they share the batch shape) and the validation flag
`_validate_args` recorded by the base-class constructor. -/
structure Triangular where
  low : Tensor
  high : Tensor
  peak : Tensor
  validate_args : Bool

/-- The batch shape: the common shape of the broadcast parameters. -/
def Triangular.batch_shape (d : Triangular) : List ℕ := d.low.shape

/-- The event shape: always empty (a scalar-valued distribution). -/
def Triangular.event_shape (_ : Triangular) : List ℕ := []

/-- `Triangular.__init__`: stores the (broadcast) parameters, then, when
validation is enabled, checks `low < high` over all batch elements, then
`low <= peak`, then `peak <= high`, raising `ValueError` with the source's
message at the first failing check.  A raise is modelled as `Except.error`
carrying the message, so no instance is returned on failure. -/
def Triangular.init (low high peak : Tensor) (validate_args : Bool) :
    Except String Triangular :=
  if validate_args then
    if !((allIdx low.shape).all fun i => (low.data i).lt (high.data i)) then
      .error "Triangular is not defined when low >= high"
    else if !((allIdx low.shape).all fun i => (low.data i).le (peak.data i)) then
      .error "Triangular is not defined when peak < low"
    else if !((allIdx low.shape).all fun i => (peak.data i).le (high.data i)) then
      .error "Triangular is not defined when peak > high"
    else .ok ⟨low, high, peak, validate_args⟩
  else .ok ⟨low, high, peak, validate_args⟩

/-- The elementwise body of `Triangular.rsample`: given the parameter
values and the standard-uniform draw `u` at one position,
`where(u < (peak - low)/L, low + sqrt(u * L * (peak - low)),
high - sqrt((1 - u) * L * (high - peak)))` with `L = high - low`. -/
def rsampleElem (low high peak u : F) : F :=
  let interval_length := high.sub low
  if u.lt ((peak.sub low).div interval_length) then
    low.add (((u.mul interval_length).mul (peak.sub low)).sqrt)
  else
    high.sub (((((F.fin 1).sub u).mul interval_length).mul (high.sub peak)).sqrt)

/-- `Triangular.rsample`: the draws tensor has the extended shape
`sample_shape + batch_shape + event_shape`; parameters broadcast against it
right-aligned, i.e. each draw position reads the parameter at its trailing
(batch) index.  The standard-uniform draws are passed in as `u`. -/
def Triangular.rsample (d : Triangular) (sample_shape : List ℕ)
    (u : List ℕ → F) : Tensor :=
  ⟨sample_shape ++ d.batch_shape ++ d.event_shape, fun idx =>
    rsampleElem (d.low.data (idx.drop sample_shape.length))
      (d.high.data (idx.drop sample_shape.length))
      (d.peak.data (idx.drop sample_shape.length)) (u idx)⟩

/-- The elementwise body of `Triangular.log_prob`:
`inside_interval = where(value >= low and value <= peak,
log 2 + log(value - low) - log L - log(peak - low),
log 2 + log(high - value) - log L - log(high - peak))`, and the result is
`where(value < low or value > high, log(1 * 1e-6), inside_interval)`. -/
def log_prob (low high peak value : F) : F :=
  let interval_length := high.sub low
  let inside_interval :=
    if (value.ge low) && (value.le peak) then
      ((((F.fin 2).log).add ((value.sub low).log)).sub
        (interval_length.log)).sub ((peak.sub low).log)
    else
      ((((F.fin 2).log).add ((high.sub value).log)).sub
        (interval_length.log)).sub ((high.sub peak).log)
  if (value.lt low) || (value.gt high) then
    (((F.fin 1).mul (F.fin 1e-6)).log)
  else inside_interval

/-- The elementwise body of `Triangular.cdf`:
`inside_interval = where(value > low and value <= peak,
(value - low)^2 / (L * (peak - low)),
1 - (high - value)^2 / (L * (high - peak)))`, then
`below_low = where(value <= low, 0, inside_interval)`, and the result is
`where(value >= high, 1, below_low)`. -/
def cdf (low high peak value : F) : F :=
  let interval_length := high.sub low
  let inside_interval :=
    if (value.gt low) && (value.le peak) then
      ((value.sub low).mul (value.sub low)).div
        (interval_length.mul (peak.sub low))
    else
      (F.fin 1).sub (((high.sub value).mul (high.sub value)).div
        (interval_length.mul (high.sub peak)))
  let below_low := if value.le low then F.fin 0 else inside_interval
  if value.ge high then F.fin 1 else below_low

/-- `torch.log` applied to a Python `float` rather than a tensor:
torch's elementwise functions accept only tensors, so the call raises
`TypeError` in every torch release.  (The tensor idiom the rest of this
file uses for the same constant is `torch.tensor(2.0).log()`.) -/
def torchLogFloat (_ : ℝ) : Except String F :=
  .error "TypeError: log() argument must be Tensor, not float"

/-- The `entropy` lazy property:
`0.5 - torch.log(2.) + torch.log(self.high - self.low)`.  The subterm
`torch.log(2.)` passes the Python float `2.` to `torch.log`, so every
access raises before any elementwise arithmetic happens; the raise is
modelled as `Except.error`.  Had the call returned, the remaining
computation would be the elementwise `0.5 - log 2 + log(high - low)`,
which does not read `peak`. -/
def Triangular.entropy (d : Triangular) : Except String Tensor :=
  match torchLogFloat 2 with
  | .error e => .error e
  | .ok lg2 => .ok ⟨d.low.shape, fun i =>
      ((F.fin 0.5).sub lg2).add (((d.high.data i).sub (d.low.data i)).log)⟩

/-- `Triangular.expand`.  Modelled from the spec: the parent distribution
abstraction's generic `expand` (not part of `src/`) supplies only a
fallback that defers to the subclass — in the source the `try` arm raises
`NotImplementedError` — so the `except` arm runs: the three parameters are
broadcast-expanded, a new instance is constructed with `validate_args=False`
(skipping validation), and the new instance's validation flag is then
overwritten with the original's. -/
def Triangular.expand (d : Triangular) (batch_shape : List ℕ) :
    Except String Triangular :=
  match Triangular.init (d.low.expand batch_shape) (d.high.expand batch_shape)
      (d.peak.expand batch_shape) false with
  | .ok r => .ok { r with validate_args := d.validate_args }
  | .error e => .error e

/-- Spec formula for the left leg of the density (paraphrasing §4.3):
`log 2 + log(value - low) - log(high - low) - log(peak - low)`. -/
def specLogProbLeft (low high peak value : F) : F :=
  ((((F.fin 2).log).add ((value.sub low).log)).sub
    ((high.sub low).log)).sub ((peak.sub low).log)

/-- Spec formula for the right leg of the density (paraphrasing §4.3):
`log 2 + log(high - value) - log(high - low) - log(high - peak)`. -/
def specLogProbRight (low high peak value : F) : F :=
  ((((F.fin 2).log).add ((high.sub value).log)).sub
    ((high.sub low).log)).sub ((high.sub peak).log)

/-- Spec formula for the interior piecewise CDF (paraphrasing §4.4):
`(value - low)^2 / ((high - low) * (peak - low))` for
`low < value <= peak`, else
`1 - (high - value)^2 / ((high - low) * (high - peak))`. -/
def specCdfInterior (l h p v : ℝ) : F :=
  if l < v ∧ v ≤ p then F.fin ((v - l) ^ 2 / ((h - l) * (p - l)))
  else F.fin (1 - (h - v) ^ 2 / ((h - l) * (h - p)))

/-- Real-valued closed form of `cdf` on finite inputs, used to reason
about monotonicity. -/
def cdfReal (l h p v : ℝ) : ℝ :=
  if h ≤ v then 1
  else if v ≤ l then 0
  else if v ≤ p then (v - l) ^ 2 / ((h - l) * (p - l))
  else 1 - (h - v) ^ 2 / ((h - l) * (h - p))

end

namespace F

theorem fin_add (a b : ℝ) : (fin a).add (fin b) = fin (a + b) := rfl

theorem fin_sub (a b : ℝ) : (fin a).sub (fin b) = fin (a - b) := by
  simp [sub, add, neg, sub_eq_add_neg]

theorem fin_mul (a b : ℝ) : (fin a).mul (fin b) = fin (a * b) := rfl

theorem fin_div {a b : ℝ} (hb : b ≠ 0) :
    (fin a).div (fin b) = fin (a / b) := by simp [div, hb]

theorem fin_sqrt {a : ℝ} (ha : 0 ≤ a) : (fin a).sqrt = fin (Real.sqrt a) := by
  simp [sqrt, not_lt.mpr ha]

theorem fin_log_pos {a : ℝ} (ha : 0 < a) : (fin a).log = fin (Real.log a) := by
  simp [log, not_lt.mpr ha.le, ha.ne']

theorem fin_log_zero : (fin 0).log = ninf := by simp [log]

theorem fin_lt (a b : ℝ) : (fin a).lt (fin b) = decide (a < b) := rfl

theorem fin_le (a b : ℝ) : (fin a).le (fin b) = decide (a ≤ b) := rfl

theorem fin_gt (a b : ℝ) : (fin a).gt (fin b) = decide (b < a) := rfl

theorem fin_ge (a b : ℝ) : (fin a).ge (fin b) = decide (b ≤ a) := rfl

theorem fin_add_ninf (a : ℝ) : (fin a).add ninf = ninf := rfl

theorem ninf_sub_fin (b : ℝ) : ninf.sub (fin b) = ninf := rfl

theorem ninf_ne_fin (b : ℝ) : ninf ≠ fin b := by intro h; cases h

end F

/-- Closed form of `rsampleElem` on finite valid inputs: the elementwise
select between the two inverse-CDF legs. -/
theorem rsampleElem_fin (l h p u : ℝ) (hlh : l < h) (hlp : l ≤ p)
    (hph : p ≤ h) (hu0 : 0 ≤ u) (hu1 : u < 1) :
    rsampleElem (F.fin l) (F.fin h) (F.fin p) (F.fin u) =
      if u < (p - l) / (h - l) then
        F.fin (l + Real.sqrt (u * (h - l) * (p - l)))
      else
        F.fin (h - Real.sqrt ((1 - u) * (h - l) * (h - p))) := by
  have hL : (0 : ℝ) < h - l := sub_pos.mpr hlh
  by_cases hc : u < (p - l) / (h - l)
  · have harg : 0 ≤ u * (h - l) * (p - l) :=
      mul_nonneg (mul_nonneg hu0 hL.le) (sub_nonneg.mpr hlp)
    rw [rsampleElem]
    simp only [F.fin_sub, F.fin_div hL.ne', F.fin_lt, F.fin_mul,
      F.fin_sqrt harg, F.fin_add, decide_eq_true hc, if_pos hc]
    simp
  · have harg : 0 ≤ (1 - u) * (h - l) * (h - p) :=
      mul_nonneg (mul_nonneg (by linarith) hL.le) (sub_nonneg.mpr hph)
    rw [rsampleElem]
    simp only [F.fin_sub, F.fin_div hL.ne', F.fin_lt, F.fin_mul,
      F.fin_sqrt harg, decide_eq_false hc, if_neg hc]
    simp

/-- Claim C1: for every valid parameterization (`low < high`,
`low <= peak <= high`) and every value, `log_prob` equals
`log 2 + log(value - low) - log(high - low) - log(peak - low)` when
`low <= value <= peak`, equals
`log 2 + log(high - value) - log(high - low) - log(high - peak)` when
`peak < value <= high`, and equals `log 1e-6` exactly when `value < low` or
`value > high`: the floor branch is applied last and only strictly outside
`[low, high]`, and `value == peak` falls in the first branch. -/
theorem log_prob_piecewise (l h p : ℝ) (hlh : l < h) (hlp : l ≤ p)
    (hph : p ≤ h) :
    (∀ v : ℝ, l ≤ v → v ≤ p →
      log_prob (F.fin l) (F.fin h) (F.fin p) (F.fin v) =
        specLogProbLeft (F.fin l) (F.fin h) (F.fin p) (F.fin v)) ∧
    (∀ v : ℝ, p < v → v ≤ h →
      log_prob (F.fin l) (F.fin h) (F.fin p) (F.fin v) =
        specLogProbRight (F.fin l) (F.fin h) (F.fin p) (F.fin v)) ∧
    (∀ v : ℝ, v < l ∨ h < v →
      log_prob (F.fin l) (F.fin h) (F.fin p) (F.fin v) =
        F.fin (Real.log 1e-6)) := by
  refine ⟨fun v h1 h2 => ?_, fun v h1 h2 => ?_, fun v h1 => ?_⟩
  · have c1 : ((F.fin v).lt (F.fin l) || (F.fin v).gt (F.fin h)) = false := by
      rw [F.fin_lt, F.fin_gt, decide_eq_false (not_lt.mpr h1),
        decide_eq_false (not_lt.mpr (h2.trans hph))]
      rfl
    have c2 : ((F.fin v).ge (F.fin l) && (F.fin v).le (F.fin p)) = true := by
      rw [F.fin_ge, F.fin_le, decide_eq_true h1, decide_eq_true h2]
      rfl
    simp [log_prob, specLogProbLeft, c1, c2]
  · have c1 : ((F.fin v).lt (F.fin l) || (F.fin v).gt (F.fin h)) = false := by
      rw [F.fin_lt, F.fin_gt, decide_eq_false (not_lt.mpr (hlp.trans h1.le)),
        decide_eq_false (not_lt.mpr h2)]
      rfl
    have c2 : ((F.fin v).ge (F.fin l) && (F.fin v).le (F.fin p)) = false := by
      rw [F.fin_ge, F.fin_le, decide_eq_false (not_le.mpr h1), Bool.and_false]
    simp [log_prob, specLogProbRight, c1, c2]
  · have c1 : ((F.fin v).lt (F.fin l) || (F.fin v).gt (F.fin h)) = true := by
      rw [F.fin_lt, F.fin_gt, Bool.or_eq_true, decide_eq_true_eq,
        decide_eq_true_eq]
      exact h1
    have e6 : (0 : ℝ) < 1e-6 := by norm_num
    simp [log_prob, c1, F.fin_mul, one_mul, F.fin_log_pos e6]

/-- Witness for C1 at `low = 0`, `high = 1`, `peak = 1/2`. -/
theorem log_prob_piecewise_witness :
    ((0 : ℝ) < 1 ∧ (0 : ℝ) ≤ 1 / 2 ∧ (1 / 2 : ℝ) ≤ 1) ∧
    ((∀ v : ℝ, (0 : ℝ) ≤ v → v ≤ 1 / 2 →
      log_prob (F.fin 0) (F.fin 1) (F.fin (1 / 2)) (F.fin v) =
        specLogProbLeft (F.fin 0) (F.fin 1) (F.fin (1 / 2)) (F.fin v)) ∧
    (∀ v : ℝ, 1 / 2 < v → v ≤ 1 →
      log_prob (F.fin 0) (F.fin 1) (F.fin (1 / 2)) (F.fin v) =
        specLogProbRight (F.fin 0) (F.fin 1) (F.fin (1 / 2)) (F.fin v)) ∧
    (∀ v : ℝ, v < 0 ∨ 1 < v →
      log_prob (F.fin 0) (F.fin 1) (F.fin (1 / 2)) (F.fin v) =
        F.fin (Real.log 1e-6))) :=
  ⟨⟨by norm_num, by norm_num, by norm_num⟩,
    log_prob_piecewise 0 1 (1 / 2) (by norm_num) (by norm_num) (by norm_num)⟩

/-- Claim C5 (the code at the failing input): the `entropy` formula calls
`torch.log(2.)` on the Python float `2.`, so accessing `entropy` raises
`TypeError` for every instance — here evaluated at the valid parameters
`low = 0`, `high = 1`, `peak = 1/2` — instead of returning the value
`0.5 - log 2 + log(high - low)` the spec states. -/
theorem entropy_access_raises :
    Triangular.entropy
      ⟨⟨[], fun _ => F.fin 0⟩, ⟨[], fun _ => F.fin 1⟩,
        ⟨[], fun _ => F.fin (1 / 2)⟩, true⟩
      = .error "TypeError: log() argument must be Tensor, not float" := rfl

/-- Claim C8: when `peak == low` (and `low < high`), the sampling transform
does not fail for the draw `u == 0`: the selected (right) formula evaluates
to exactly `low`, since `high - sqrt((1 - 0) * (high - low) * (high - low))
= low`. -/
theorem rsample_peak_low_zero_draw (l h : ℝ) (hlh : l < h) :
    rsampleElem (F.fin l) (F.fin h) (F.fin l) (F.fin 0) = F.fin l := by
  rw [rsampleElem_fin l h l 0 hlh le_rfl hlh.le le_rfl one_pos,
    if_neg (by simp)]
  have e : (1 - (0 : ℝ)) * (h - l) * (h - l) = (h - l) ^ 2 := by ring
  rw [e, Real.sqrt_sq (by linarith)]
  norm_num

/-- Witness for C8 at `low = 0`, `high = 1`. -/
theorem rsample_peak_low_zero_draw_witness :
    (0 : ℝ) < 1 ∧
    rsampleElem (F.fin 0) (F.fin 1) (F.fin 0) (F.fin 0) = F.fin 0 :=
  ⟨by norm_num, rsample_peak_low_zero_draw 0 1 (by norm_num)⟩

/-- Claim C10: for a valid parameterization with `peak > low`,
`log_prob(low)` is not the floor value `log 1e-6`: the inside-interval
branch is selected and the result is
`log 2 + log 0 - log(high - low) - log(peak - low)`, negative infinity
under IEEE semantics; symmetrically `log_prob(high)` is negative infinity
when `peak < high`. -/
theorem log_prob_boundary_ninf (l h p : ℝ) (hlh : l < h) (hlp : l ≤ p)
    (hph : p ≤ h) :
    (l < p →
      log_prob (F.fin l) (F.fin h) (F.fin p) (F.fin l) = F.ninf ∧
      log_prob (F.fin l) (F.fin h) (F.fin p) (F.fin l) ≠
        F.fin (Real.log 1e-6)) ∧
    (p < h →
      log_prob (F.fin l) (F.fin h) (F.fin p) (F.fin h) = F.ninf) := by
  have h2 : (0 : ℝ) < 2 := by norm_num
  constructor
  · intro hlp'
    have c1 : ((F.fin l).lt (F.fin l) || (F.fin l).gt (F.fin h)) = false := by
      rw [F.fin_lt, F.fin_gt, decide_eq_false (lt_irrefl l),
        decide_eq_false (not_lt.mpr hlh.le)]
      rfl
    have c2 : ((F.fin l).ge (F.fin l) && (F.fin l).le (F.fin p)) = true := by
      rw [F.fin_ge, F.fin_le, decide_eq_true (le_refl l),
        decide_eq_true hlp]
      rfl
    have e : log_prob (F.fin l) (F.fin h) (F.fin p) (F.fin l) = F.ninf := by
      simp [log_prob, c1, c2, F.fin_sub, sub_self, F.fin_log_zero,
        F.fin_log_pos h2, F.fin_add_ninf, F.fin_log_pos (sub_pos.mpr hlh),
        F.fin_log_pos (sub_pos.mpr hlp'), F.ninf_sub_fin]
    exact ⟨e, e ▸ F.ninf_ne_fin _⟩
  · intro hph'
    have c1 : ((F.fin h).lt (F.fin l) || (F.fin h).gt (F.fin h)) = false := by
      rw [F.fin_lt, F.fin_gt, decide_eq_false (not_lt.mpr hlh.le),
        decide_eq_false (lt_irrefl h)]
      rfl
    have c2 : ((F.fin h).ge (F.fin l) && (F.fin h).le (F.fin p)) = false := by
      rw [F.fin_ge, F.fin_le, decide_eq_false (not_le.mpr hph'),
        Bool.and_false]
    simp [log_prob, c1, c2, F.fin_sub, sub_self, F.fin_log_zero,
      F.fin_log_pos h2, F.fin_add_ninf, F.fin_log_pos (sub_pos.mpr hlh),
      F.fin_log_pos (sub_pos.mpr hph'), F.ninf_sub_fin]

/-- Case analysis of `cdf` on finite inputs: the interior piecewise value
is computed first, then overridden by 0 at and below `low`, then by 1 at
and above `high` (the later clamp winning). -/
theorem cdf_fin_cases (l h p : ℝ) (hlh : l < h) (hlp : l ≤ p) (hph : p ≤ h)
    (v : ℝ) :
    cdf (F.fin l) (F.fin h) (F.fin p) (F.fin v) =
      if h ≤ v then F.fin 1
      else if v ≤ l then F.fin 0
      else specCdfInterior l h p v := by
  by_cases w1 : h ≤ v
  · rw [if_pos w1]
    have cg : (F.fin v).ge (F.fin h) = true := by
      rw [F.fin_ge]; exact decide_eq_true w1
    simp [cdf, cg]
  · rw [if_neg w1]
    have cg : (F.fin v).ge (F.fin h) = false := by
      rw [F.fin_ge]; exact decide_eq_false w1
    by_cases w2 : v ≤ l
    · rw [if_pos w2]
      have cl : (F.fin v).le (F.fin l) = true := by
        rw [F.fin_le]; exact decide_eq_true w2
      simp [cdf, cg, cl]
    · rw [if_neg w2]
      have cl : (F.fin v).le (F.fin l) = false := by
        rw [F.fin_le]; exact decide_eq_false w2
      have hlv : l < v := not_le.mp w2
      have hvh : v < h := not_le.mp w1
      by_cases w3 : v ≤ p
      · have hden : ((h - l) * (p - l)) ≠ 0 :=
          (mul_pos (by linarith) (by linarith)).ne'
        have c : ((F.fin v).gt (F.fin l) && (F.fin v).le (F.fin p)) = true := by
          rw [F.fin_gt, F.fin_le, decide_eq_true hlv, decide_eq_true w3]; rfl
        simp [cdf, cg, cl, c, F.fin_sub, F.fin_mul, F.fin_div hden,
          specCdfInterior, hlv, w3, pow_two]
      · have hpv : p < v := not_le.mp w3
        have hden : ((h - l) * (h - p)) ≠ 0 :=
          (mul_pos (by linarith) (by linarith)).ne'
        have c : ((F.fin v).gt (F.fin l) && (F.fin v).le (F.fin p)) = false := by
          rw [F.fin_gt, F.fin_le, decide_eq_false w3, Bool.and_false]
        simp [cdf, cg, cl, c, F.fin_sub, F.fin_mul, F.fin_div hden,
          specCdfInterior, w3, pow_two]

/-- On finite inputs with `low < peak < high`, `cdf` is the finite real
value `cdfReal`. -/
theorem cdf_fin_eq (l h p : ℝ) (hlp : l < p) (hph : p < h) (v : ℝ) :
    cdf (F.fin l) (F.fin h) (F.fin p) (F.fin v) = F.fin (cdfReal l h p v) := by
  have hlh : l < h := hlp.trans hph
  rw [cdf_fin_cases l h p hlh hlp.le hph.le v]
  unfold cdfReal specCdfInterior
  by_cases w1 : h ≤ v
  · rw [if_pos w1, if_pos w1]
  · rw [if_neg w1, if_neg w1]
    by_cases w2 : v ≤ l
    · rw [if_pos w2, if_pos w2]
    · rw [if_neg w2, if_neg w2]
      by_cases w3 : v ≤ p
      · rw [if_pos ⟨not_le.mp w2, w3⟩, if_pos w3]
      · rw [if_neg (fun hx => w3 hx.2), if_neg w3]

/-- `cdfReal` is non-decreasing on `[low, high]` when `low < peak < high`. -/
theorem cdfReal_mono (l h p v1 v2 : ℝ) (hlp : l < p) (hph : p < h)
    (hv1 : l ≤ v1) (h12 : v1 ≤ v2) (hv2 : v2 ≤ h) :
    cdfReal l h p v1 ≤ cdfReal l h p v2 := by
  have hlh : l < h := hlp.trans hph
  have hA : (0 : ℝ) < (h - l) * (p - l) := mul_pos (by linarith) (by linarith)
  have hB : (0 : ℝ) < (h - l) * (h - p) := mul_pos (by linarith) (by linarith)
  have key1 : ∀ v, l ≤ v → v ≤ p →
      (v - l) ^ 2 / ((h - l) * (p - l)) ≤ (p - l) / (h - l) := by
    intro v hva hvb
    rw [div_le_div_iff hA (by linarith : (0 : ℝ) < h - l)]
    nlinarith [mul_nonneg (mul_nonneg (by linarith : (0 : ℝ) ≤ h - l)
      (sub_nonneg.mpr hvb)) (by linarith : (0 : ℝ) ≤ p + v - 2 * l)]
  have key2 : ∀ v, p ≤ v → v ≤ h →
      (p - l) / (h - l) ≤ 1 - (h - v) ^ 2 / ((h - l) * (h - p)) := by
    intro v hva hvb
    have hx : (h - v) ^ 2 / ((h - l) * (h - p)) ≤ (h - p) / (h - l) := by
      rw [div_le_div_iff hB (by linarith : (0 : ℝ) < h - l)]
      nlinarith [mul_nonneg (mul_nonneg (by linarith : (0 : ℝ) ≤ h - l)
        (sub_nonneg.mpr hva)) (by linarith : (0 : ℝ) ≤ 2 * h - p - v)]
    have hsum : (p - l) / (h - l) + (h - p) / (h - l) = 1 := by
      rw [div_add_div_same, div_eq_one_iff_eq (by linarith : h - l ≠ 0)]
      ring
    linarith
  have nonneg : ∀ v, v ≤ h → 0 ≤ cdfReal l h p v := by
    intro v hv
    unfold cdfReal
    split_ifs with w1 w2 w3
    · norm_num
    · exact le_rfl
    · exact div_nonneg (sq_nonneg _) hA.le
    · have hk := key2 v (le_of_lt (not_le.mp w3)) hv
      have hc : 0 ≤ (p - l) / (h - l) :=
        div_nonneg (by linarith) (by linarith)
      linarith
  have le_one : ∀ v, l ≤ v → cdfReal l h p v ≤ 1 := by
    intro v hv
    unfold cdfReal
    split_ifs with w1 w2 w3
    · exact le_rfl
    · norm_num
    · have hk := key1 v hv w3
      have hc : (p - l) / (h - l) ≤ 1 := by
        rw [div_le_one (by linarith : (0 : ℝ) < h - l)]; linarith
      linarith
    · have : 0 ≤ (h - v) ^ 2 / ((h - l) * (h - p)) :=
        div_nonneg (sq_nonneg _) hB.le
      linarith
  by_cases ha2 : h ≤ v2
  · have e2 : cdfReal l h p v2 = 1 := by rw [cdfReal, if_pos ha2]
    rw [e2]
    exact le_one v1 hv1
  · have ha1 : ¬ h ≤ v1 := fun hx => ha2 (hx.trans h12)
    by_cases hb1 : v1 ≤ l
    · have e1 : cdfReal l h p v1 = 0 := by
        rw [cdfReal, if_neg ha1, if_pos hb1]
      rw [e1]
      exact nonneg v2 (by linarith)
    · have hlv1 : l < v1 := not_le.mp hb1
      have hb2 : ¬ v2 ≤ l := fun hx => hb1 (h12.trans hx)
      by_cases hc1 : v1 ≤ p
      · have e1 : cdfReal l h p v1 = (v1 - l) ^ 2 / ((h - l) * (p - l)) := by
          rw [cdfReal, if_neg ha1, if_neg hb1, if_pos hc1]
        by_cases hc2 : v2 ≤ p
        · have e2 : cdfReal l h p v2 = (v2 - l) ^ 2 / ((h - l) * (p - l)) := by
            rw [cdfReal, if_neg ha2, if_neg hb2, if_pos hc2]
          rw [e1, e2]
          gcongr <;> linarith
        · have e2 : cdfReal l h p v2 =
              1 - (h - v2) ^ 2 / ((h - l) * (h - p)) := by
            rw [cdfReal, if_neg ha2, if_neg hb2, if_neg hc2]
          have k1 := key1 v1 hv1 hc1
          have k2 := key2 v2 (le_of_lt (not_le.mp hc2)) (by linarith)
          rw [e1, e2]
          linarith
      · have hc2 : ¬ v2 ≤ p := fun hx => hc1 (h12.trans hx)
        have e1 : cdfReal l h p v1 =
            1 - (h - v1) ^ 2 / ((h - l) * (h - p)) := by
          rw [cdfReal, if_neg ha1, if_neg hb1, if_neg hc1]
        have e2 : cdfReal l h p v2 =
            1 - (h - v2) ^ 2 / ((h - l) * (h - p)) := by
          rw [cdfReal, if_neg ha2, if_neg hb2, if_neg hc2]
        rw [e1, e2]
        have hd : (h - v2) ^ 2 / ((h - l) * (h - p)) ≤
            (h - v1) ^ 2 / ((h - l) * (h - p)) := by
          gcongr <;> linarith [not_le.mp ha2]
        linarith

/-- Claim C3: for every valid parameterization, `cdf` evaluates the
interior piecewise formula first, then overrides with 0 for
`value <= low`, then overrides with 1 for `value >= high` (the later clamp
winning at shared boundaries); in particular `cdf(low) == 0` and
`cdf(high) == 1` exactly. -/
theorem cdf_override_order (l h p : ℝ) (hlh : l < h) (hlp : l ≤ p)
    (hph : p ≤ h) :
    (∀ v : ℝ, cdf (F.fin l) (F.fin h) (F.fin p) (F.fin v) =
      if h ≤ v then F.fin 1
      else if v ≤ l then F.fin 0
      else specCdfInterior l h p v) ∧
    cdf (F.fin l) (F.fin h) (F.fin p) (F.fin l) = F.fin 0 ∧
    cdf (F.fin l) (F.fin h) (F.fin p) (F.fin h) = F.fin 1 := by
  refine ⟨cdf_fin_cases l h p hlh hlp hph, ?_, ?_⟩
  · rw [cdf_fin_cases l h p hlh hlp hph l, if_neg (not_le.mpr hlh),
      if_pos le_rfl]
  · rw [cdf_fin_cases l h p hlh hlp hph h, if_pos le_rfl]

/-- Witness for C3 at `low = 0`, `high = 1`, `peak = 1/2`. -/
theorem cdf_override_order_witness :
    ((0 : ℝ) < 1 ∧ (0 : ℝ) ≤ 1 / 2 ∧ (1 / 2 : ℝ) ≤ 1) ∧
    ((∀ v : ℝ, cdf (F.fin 0) (F.fin 1) (F.fin (1 / 2)) (F.fin v) =
      if (1 : ℝ) ≤ v then F.fin 1
      else if v ≤ 0 then F.fin 0
      else specCdfInterior 0 1 (1 / 2) v) ∧
    cdf (F.fin 0) (F.fin 1) (F.fin (1 / 2)) (F.fin 0) = F.fin 0 ∧
    cdf (F.fin 0) (F.fin 1) (F.fin (1 / 2)) (F.fin 1) = F.fin 1) :=
  ⟨⟨by norm_num, by norm_num, by norm_num⟩,
    cdf_override_order 0 1 (1 / 2) (by norm_num) (by norm_num) (by norm_num)⟩

/-- Claim C6: for every valid parameterization with `low < peak < high` and
all values `v1 <= v2` in `[low, high]`, `cdf(v1) <= cdf(v2)`: the CDF is
non-decreasing on `[low, high]` (stated with the code's `<=` on values). -/
theorem cdf_monotone (l h p v1 v2 : ℝ) (hlp : l < p) (hph : p < h)
    (hv1 : l ≤ v1) (h12 : v1 ≤ v2) (hv2 : v2 ≤ h) :
    (cdf (F.fin l) (F.fin h) (F.fin p) (F.fin v1)).le
      (cdf (F.fin l) (F.fin h) (F.fin p) (F.fin v2)) = true := by
  rw [cdf_fin_eq l h p hlp hph v1, cdf_fin_eq l h p hlp hph v2, F.fin_le]
  exact decide_eq_true (cdfReal_mono l h p v1 v2 hlp hph hv1 h12 hv2)

/-- Witness for C6 at `low = 0`, `high = 1`, `peak = 1/2`, `v1 = 1/4`,
`v2 = 3/4`. -/
theorem cdf_monotone_witness :
    ((0 : ℝ) < 1 / 2 ∧ (1 / 2 : ℝ) < 1 ∧ (0 : ℝ) ≤ 1 / 4 ∧
      (1 / 4 : ℝ) ≤ 3 / 4 ∧ (3 / 4 : ℝ) ≤ 1) ∧
    (cdf (F.fin 0) (F.fin 1) (F.fin (1 / 2)) (F.fin (1 / 4))).le
      (cdf (F.fin 0) (F.fin 1) (F.fin (1 / 2)) (F.fin (3 / 4))) = true :=
  ⟨⟨by norm_num, by norm_num, by norm_num, by norm_num, by norm_num⟩,
    cdf_monotone 0 1 (1 / 2) (1 / 4) (3 / 4) (by norm_num) (by norm_num)
      (by norm_num) (by norm_num) (by norm_num)⟩

/-- Witness for C10 at `low = 0`, `high = 1`, `peak = 1/2`. -/
theorem log_prob_boundary_ninf_witness :
    ((0 : ℝ) < 1 ∧ (0 : ℝ) ≤ 1 / 2 ∧ (1 / 2 : ℝ) ≤ 1) ∧
    (((0 : ℝ) < 1 / 2 →
      log_prob (F.fin 0) (F.fin 1) (F.fin (1 / 2)) (F.fin 0) = F.ninf ∧
      log_prob (F.fin 0) (F.fin 1) (F.fin (1 / 2)) (F.fin 0) ≠
        F.fin (Real.log 1e-6)) ∧
    ((1 / 2 : ℝ) < 1 →
      log_prob (F.fin 0) (F.fin 1) (F.fin (1 / 2)) (F.fin 1) = F.ninf)) :=
  ⟨⟨by norm_num, by norm_num, by norm_num⟩,
    log_prob_boundary_ninf 0 1 (1 / 2) (by norm_num) (by norm_num)
      (by norm_num)⟩

/-- Claim C9: for every valid parameterization and every uniform draw
`u` in `[0, 1)`, the value returned by the sampling transform is a finite
real lying in the closed interval `[low, high]`. -/
theorem rsample_in_support (l h p u : ℝ) (hlh : l < h) (hlp : l ≤ p)
    (hph : p ≤ h) (hu0 : 0 ≤ u) (hu1 : u < 1) :
    ∃ x : ℝ, rsampleElem (F.fin l) (F.fin h) (F.fin p) (F.fin u) = F.fin x ∧
      l ≤ x ∧ x ≤ h := by
  rw [rsampleElem_fin l h p u hlh hlp hph hu0 hu1]
  have hL : (0 : ℝ) < h - l := sub_pos.mpr hlh
  by_cases hc : u < (p - l) / (h - l)
  · rw [if_pos hc]
    refine ⟨_, rfl, ?_, ?_⟩
    · have := Real.sqrt_nonneg (u * (h - l) * (p - l))
      linarith
    · have h1 : u * (h - l) < p - l := (lt_div_iff hL).mp hc
      have harg : u * (h - l) * (p - l) ≤ (p - l) ^ 2 := by
        nlinarith [sub_nonneg.mpr hlp]
      have hs : Real.sqrt (u * (h - l) * (p - l)) ≤ p - l := by
        calc Real.sqrt (u * (h - l) * (p - l)) ≤ Real.sqrt ((p - l) ^ 2) :=
              Real.sqrt_le_sqrt harg
          _ = p - l := Real.sqrt_sq (sub_nonneg.mpr hlp)
      linarith
  · rw [if_neg hc]
    have hcu : (p - l) / (h - l) ≤ u := not_lt.mp hc
    refine ⟨_, rfl, ?_, ?_⟩
    · have h1u : 1 - u ≤ (h - p) / (h - l) := by
        have hsum : (p - l) / (h - l) + (h - p) / (h - l) = 1 := by
          rw [div_add_div_same, div_eq_one_iff_eq hL.ne']
          ring
        linarith
      have h2 : (1 - u) * (h - l) ≤ h - p := by
        have := mul_le_mul_of_nonneg_right h1u hL.le
        rwa [div_mul_cancel₀ _ hL.ne'] at this
      have harg : (1 - u) * (h - l) * (h - p) ≤ (h - p) ^ 2 := by
        nlinarith [sub_nonneg.mpr hph]
      have hs : Real.sqrt ((1 - u) * (h - l) * (h - p)) ≤ h - p := by
        calc Real.sqrt ((1 - u) * (h - l) * (h - p))
            ≤ Real.sqrt ((h - p) ^ 2) := Real.sqrt_le_sqrt harg
          _ = h - p := Real.sqrt_sq (sub_nonneg.mpr hph)
      linarith
    · have := Real.sqrt_nonneg ((1 - u) * (h - l) * (h - p))
      linarith

/-- Witness for C9 at `low = 0`, `high = 1`, `peak = 1/2`, `u = 1/4`. -/
theorem rsample_in_support_witness :
    ((0 : ℝ) < 1 ∧ (0 : ℝ) ≤ 1 / 2 ∧ (1 / 2 : ℝ) ≤ 1 ∧ (0 : ℝ) ≤ 1 / 4 ∧
      (1 / 4 : ℝ) < 1) ∧
    ∃ x : ℝ, rsampleElem (F.fin 0) (F.fin 1) (F.fin (1 / 2)) (F.fin (1 / 4))
        = F.fin x ∧ (0 : ℝ) ≤ x ∧ x ≤ 1 :=
  ⟨⟨by norm_num, by norm_num, by norm_num, by norm_num, by norm_num⟩,
    rsample_in_support 0 1 (1 / 2) (1 / 4) (by norm_num) (by norm_num)
      (by norm_num) (by norm_num) (by norm_num)⟩

/-- Claim C2: for every valid parameterization and every tensor of uniform
draws in `[0, 1)`, `rsample(sample_shape)` returns an array of shape
`sample_shape + batch_shape` whose elementwise value is
`low + sqrt(u * (high - low) * (peak - low))` when
`u < (peak - low)/(high - low)`, and
`high - sqrt((1 - u) * (high - low) * (high - peak))` otherwise
(an elementwise select over the index space, not control flow). -/
theorem rsample_shape_value (ss bs : List ℕ) (l h p u : List ℕ → ℝ)
    (va : Bool) (hv : ∀ i, l i < h i ∧ l i ≤ p i ∧ p i ≤ h i)
    (hu : ∀ i, 0 ≤ u i ∧ u i < 1) :
    (Triangular.rsample
      ⟨⟨bs, fun i => F.fin (l i)⟩, ⟨bs, fun i => F.fin (h i)⟩,
        ⟨bs, fun i => F.fin (p i)⟩, va⟩ ss (fun i => F.fin (u i))).shape
      = ss ++ bs ∧
    ∀ idx : List ℕ,
      (Triangular.rsample
        ⟨⟨bs, fun i => F.fin (l i)⟩, ⟨bs, fun i => F.fin (h i)⟩,
          ⟨bs, fun i => F.fin (p i)⟩, va⟩ ss (fun i => F.fin (u i))).data idx
      = if u idx < (p (idx.drop ss.length) - l (idx.drop ss.length)) /
            (h (idx.drop ss.length) - l (idx.drop ss.length)) then
          F.fin (l (idx.drop ss.length) + Real.sqrt
            (u idx * (h (idx.drop ss.length) - l (idx.drop ss.length)) *
              (p (idx.drop ss.length) - l (idx.drop ss.length))))
        else
          F.fin (h (idx.drop ss.length) - Real.sqrt
            ((1 - u idx) * (h (idx.drop ss.length) - l (idx.drop ss.length)) *
              (h (idx.drop ss.length) - p (idx.drop ss.length)))) := by
  constructor
  · simp [Triangular.rsample, Triangular.batch_shape, Triangular.event_shape]
  · intro idx
    have h1 := hv (idx.drop ss.length)
    have h2 := hu idx
    show rsampleElem (F.fin (l (idx.drop ss.length)))
      (F.fin (h (idx.drop ss.length))) (F.fin (p (idx.drop ss.length)))
      (F.fin (u idx)) = _
    exact rsampleElem_fin _ _ _ _ h1.1 h1.2.1 h1.2.2 h2.1 h2.2

/-- Witness for C2: `sample_shape = [2]`, `batch_shape = [3]`, constant
parameters `low = 0`, `high = 1`, `peak = 1/2` and constant draw `1/4`. -/
theorem rsample_shape_value_witness :
    ((∀ i : List ℕ, (0 : ℝ) < 1 ∧ (0 : ℝ) ≤ 1 / 2 ∧ (1 / 2 : ℝ) ≤ 1) ∧
      (∀ i : List ℕ, (0 : ℝ) ≤ 1 / 4 ∧ (1 / 4 : ℝ) < 1)) ∧
    ((Triangular.rsample
      ⟨⟨[3], fun _ => F.fin 0⟩, ⟨[3], fun _ => F.fin 1⟩,
        ⟨[3], fun _ => F.fin (1 / 2)⟩, true⟩ [2]
        (fun _ => F.fin (1 / 4))).shape = [2] ++ [3] ∧
    ∀ idx : List ℕ,
      (Triangular.rsample
        ⟨⟨[3], fun _ => F.fin 0⟩, ⟨[3], fun _ => F.fin 1⟩,
          ⟨[3], fun _ => F.fin (1 / 2)⟩, true⟩ [2]
          (fun _ => F.fin (1 / 4))).data idx
      = if (1 / 4 : ℝ) < (1 / 2 - 0) / (1 - 0) then
          F.fin (0 + Real.sqrt (1 / 4 * (1 - 0) * (1 / 2 - 0)))
        else
          F.fin (1 - Real.sqrt ((1 - 1 / 4) * (1 - 0) * (1 - 1 / 2)))) :=
  ⟨⟨fun _ => ⟨by norm_num, by norm_num, by norm_num⟩,
      fun _ => ⟨by norm_num, by norm_num⟩⟩,
    rsample_shape_value [2] [3] (fun _ => 0) (fun _ => 1) (fun _ => 1 / 2)
      (fun _ => 1 / 4) true (fun _ => ⟨by norm_num, by norm_num, by norm_num⟩)
      (fun _ => ⟨by norm_num, by norm_num⟩)⟩

/-- If every batch element satisfies all three constraints, the
constructor succeeds and returns the instance. -/
theorem init_ok (bs : List ℕ) (l h p : List ℕ → ℝ)
    (c1 : ∀ i ∈ allIdx bs, l i < h i) (c2 : ∀ i ∈ allIdx bs, l i ≤ p i)
    (c3 : ∀ i ∈ allIdx bs, p i ≤ h i) :
    Triangular.init ⟨bs, fun i => F.fin (l i)⟩ ⟨bs, fun i => F.fin (h i)⟩
      ⟨bs, fun i => F.fin (p i)⟩ true =
      .ok ⟨⟨bs, fun i => F.fin (l i)⟩, ⟨bs, fun i => F.fin (h i)⟩,
        ⟨bs, fun i => F.fin (p i)⟩, true⟩ := by
  have b1 : ((allIdx bs).all fun i => (F.fin (l i)).lt (F.fin (h i)))
      = true :=
    List.all_eq_true.mpr fun i hi => by
      rw [F.fin_lt]; exact decide_eq_true (c1 i hi)
  have b2 : ((allIdx bs).all fun i => (F.fin (l i)).le (F.fin (p i)))
      = true :=
    List.all_eq_true.mpr fun i hi => by
      rw [F.fin_le]; exact decide_eq_true (c2 i hi)
  have b3 : ((allIdx bs).all fun i => (F.fin (p i)).le (F.fin (h i)))
      = true :=
    List.all_eq_true.mpr fun i hi => by
      rw [F.fin_le]; exact decide_eq_true (c3 i hi)
  simp [Triangular.init, b1, b2, b3]

/-- If some batch element has `low >= high`, the constructor raises the
first error. -/
theorem init_err_low_high (bs : List ℕ) (l h p : List ℕ → ℝ)
    (hviol : ∃ i ∈ allIdx bs, ¬ l i < h i) :
    Triangular.init ⟨bs, fun i => F.fin (l i)⟩ ⟨bs, fun i => F.fin (h i)⟩
      ⟨bs, fun i => F.fin (p i)⟩ true =
      .error "Triangular is not defined when low >= high" := by
  obtain ⟨i, hi, hn⟩ := hviol
  have b1 : ((allIdx bs).all fun i => (F.fin (l i)).lt (F.fin (h i)))
      = false := by
    rw [List.all_eq_false]
    exact ⟨i, hi, by rw [F.fin_lt]; simpa using hn⟩
  simp [Triangular.init, b1]

/-- If all batch elements have `low < high` but some has `peak < low`, the
constructor raises the second error. -/
theorem init_err_peak_low (bs : List ℕ) (l h p : List ℕ → ℝ)
    (c1 : ∀ i ∈ allIdx bs, l i < h i)
    (hviol : ∃ i ∈ allIdx bs, ¬ l i ≤ p i) :
    Triangular.init ⟨bs, fun i => F.fin (l i)⟩ ⟨bs, fun i => F.fin (h i)⟩
      ⟨bs, fun i => F.fin (p i)⟩ true =
      .error "Triangular is not defined when peak < low" := by
  obtain ⟨i, hi, hn⟩ := hviol
  have b1 : ((allIdx bs).all fun i => (F.fin (l i)).lt (F.fin (h i)))
      = true :=
    List.all_eq_true.mpr fun i hi => by
      rw [F.fin_lt]; exact decide_eq_true (c1 i hi)
  have b2 : ((allIdx bs).all fun i => (F.fin (l i)).le (F.fin (p i)))
      = false := by
    rw [List.all_eq_false]
    exact ⟨i, hi, by rw [F.fin_le]; simpa using hn⟩
  simp [Triangular.init, b1, b2]

/-- If all batch elements have `low < high` and `low <= peak` but some has
`peak > high`, the constructor raises the third error. -/
theorem init_err_peak_high (bs : List ℕ) (l h p : List ℕ → ℝ)
    (c1 : ∀ i ∈ allIdx bs, l i < h i) (c2 : ∀ i ∈ allIdx bs, l i ≤ p i)
    (hviol : ∃ i ∈ allIdx bs, ¬ p i ≤ h i) :
    Triangular.init ⟨bs, fun i => F.fin (l i)⟩ ⟨bs, fun i => F.fin (h i)⟩
      ⟨bs, fun i => F.fin (p i)⟩ true =
      .error "Triangular is not defined when peak > high" := by
  obtain ⟨i, hi, hn⟩ := hviol
  have b1 : ((allIdx bs).all fun i => (F.fin (l i)).lt (F.fin (h i)))
      = true :=
    List.all_eq_true.mpr fun i hi => by
      rw [F.fin_lt]; exact decide_eq_true (c1 i hi)
  have b2 : ((allIdx bs).all fun i => (F.fin (l i)).le (F.fin (p i)))
      = true :=
    List.all_eq_true.mpr fun i hi => by
      rw [F.fin_le]; exact decide_eq_true (c2 i hi)
  have b3 : ((allIdx bs).all fun i => (F.fin (p i)).le (F.fin (h i)))
      = false := by
    rw [List.all_eq_false]
    exact ⟨i, hi, by rw [F.fin_le]; simpa using hn⟩
  simp [Triangular.init, b1, b2, b3]

/-- Claim C4: with validation enabled, construction fails — raising an
invalid-parameter error whose message names the violated constraint
("low >= high", "peak < low", or "peak > high", checked in that order) —
if and only if some batch element violates `low < high`, `low <= peak` or
`peak <= high`; on success no error is raised (the instance is returned),
and on failure no instance is returned (the result is only the error). -/
theorem init_validation (bs : List ℕ) (l h p : List ℕ → ℝ) :
    ((∃ msg, Triangular.init ⟨bs, fun i => F.fin (l i)⟩
        ⟨bs, fun i => F.fin (h i)⟩ ⟨bs, fun i => F.fin (p i)⟩ true
        = .error msg) ↔
      ∃ i ∈ allIdx bs, ¬ (l i < h i ∧ l i ≤ p i ∧ p i ≤ h i)) ∧
    ((∀ i ∈ allIdx bs, l i < h i ∧ l i ≤ p i ∧ p i ≤ h i) →
      Triangular.init ⟨bs, fun i => F.fin (l i)⟩ ⟨bs, fun i => F.fin (h i)⟩
        ⟨bs, fun i => F.fin (p i)⟩ true =
        .ok ⟨⟨bs, fun i => F.fin (l i)⟩, ⟨bs, fun i => F.fin (h i)⟩,
          ⟨bs, fun i => F.fin (p i)⟩, true⟩) ∧
    ((∃ i ∈ allIdx bs, ¬ l i < h i) →
      Triangular.init ⟨bs, fun i => F.fin (l i)⟩ ⟨bs, fun i => F.fin (h i)⟩
        ⟨bs, fun i => F.fin (p i)⟩ true =
        .error "Triangular is not defined when low >= high") ∧
    ((∀ i ∈ allIdx bs, l i < h i) → (∃ i ∈ allIdx bs, ¬ l i ≤ p i) →
      Triangular.init ⟨bs, fun i => F.fin (l i)⟩ ⟨bs, fun i => F.fin (h i)⟩
        ⟨bs, fun i => F.fin (p i)⟩ true =
        .error "Triangular is not defined when peak < low") ∧
    ((∀ i ∈ allIdx bs, l i < h i) → (∀ i ∈ allIdx bs, l i ≤ p i) →
      (∃ i ∈ allIdx bs, ¬ p i ≤ h i) →
      Triangular.init ⟨bs, fun i => F.fin (l i)⟩ ⟨bs, fun i => F.fin (h i)⟩
        ⟨bs, fun i => F.fin (p i)⟩ true =
        .error "Triangular is not defined when peak > high") := by
  refine ⟨⟨fun he => ?_, fun hviol => ?_⟩,
    fun hall => init_ok bs l h p (fun i hi => (hall i hi).1)
      (fun i hi => (hall i hi).2.1) (fun i hi => (hall i hi).2.2),
    init_err_low_high bs l h p,
    init_err_peak_low bs l h p,
    init_err_peak_high bs l h p⟩
  · by_contra hno
    push_neg at hno
    obtain ⟨msg, hmsg⟩ := he
    have hok := init_ok bs l h p (fun i hi => (hno i hi).1)
      (fun i hi => (hno i hi).2.1) (fun i hi => (hno i hi).2.2)
    rw [hok] at hmsg
    cases hmsg
  · by_cases c1 : ∀ i ∈ allIdx bs, l i < h i
    · by_cases c2 : ∀ i ∈ allIdx bs, l i ≤ p i
      · obtain ⟨i, hi, hn⟩ := hviol
        have hn3 : ¬ p i ≤ h i := fun hx => hn ⟨c1 i hi, c2 i hi, hx⟩
        exact ⟨_, init_err_peak_high bs l h p c1 c2 ⟨i, hi, hn3⟩⟩
      · push_neg at c2
        exact ⟨_, init_err_peak_low bs l h p c1
          (by obtain ⟨i, hi, hx⟩ := c2; exact ⟨i, hi, not_le.mpr hx⟩)⟩
    · push_neg at c1
      exact ⟨_, init_err_low_high bs l h p
        (by obtain ⟨i, hi, hx⟩ := c1; exact ⟨i, hi, not_lt.mpr hx⟩)⟩

/-- Claim C7: `expand(new_batch_shape)` returns a new instance whose
`low`, `high`, `peak` are broadcast-expanded to `new_batch_shape` with
per-element values read from the original tensors at the
broadcast-translated index, and whose validation flag equals the
original's; no re-validation is run during the expand construction (the
construction succeeds for every instance, valid or not), and the original
instance — a pure value here — is left unchanged. -/
theorem expand_spec (d : Triangular) (bs : List ℕ) :
    Triangular.expand d bs =
      .ok ⟨d.low.expand bs, d.high.expand bs, d.peak.expand bs,
        d.validate_args⟩ ∧
    (Tensor.expand d.low bs).shape = bs ∧
    (Tensor.expand d.high bs).shape = bs ∧
    (Tensor.expand d.peak bs).shape = bs ∧
    (∀ idx, (Tensor.expand d.low bs).data idx =
      d.low.data (broadcastIdx d.low.shape bs idx)) ∧
    (∀ idx, (Tensor.expand d.high bs).data idx =
      d.high.data (broadcastIdx d.high.shape bs idx)) ∧
    (∀ idx, (Tensor.expand d.peak bs).data idx =
      d.peak.data (broadcastIdx d.peak.shape bs idx)) := by
  refine ⟨?_, rfl, rfl, rfl, fun _ => rfl, fun _ => rfl, fun _ => rfl⟩
  simp [Triangular.expand, Triangular.init]

end Pyro
